import Mathlib

/-!
Verification of the role/permission subsystem of the ai-job-readiness backend.

The definitions below shallowly embed the role management code of
`backend/app/api/roles_refactored.py`, the schema constraints declared by the
alembic migrations `7f91e9655315` / `0e9150a01e7e`, and the permission codec
and role-membership helpers of the `Role`/`User` models.  The relational store
is modelled as plain lists of rows; SQLAlchemy's `scalar_one_or_none` is
modelled faithfully (zero rows → none, one row → the row, several rows → the
`MultipleResultsFound` exception, which the handlers' blanket `except` turns
into an internal 500 error).  Timestamps are naturals, UUIDs are naturals.
Floating-point statistics (the rounded average permission-field length) are
outside the embedding.
-/

namespace AiJobReadiness

/-- A row of the `roles` table (model `Role`).  `permissions` is the persisted
serialized permission list; the text serialization is abstracted to the list
value it encodes (its exact byte format is irrelevant to every claim).
`updated_at` is omitted: no claim mentions it. -/
structure Role where
  id : Nat
  name : String
  description : Option String
  permissions : Option (List String)
  is_active : Bool
  created_at : Nat
  deriving Repr, DecidableEq

/-- A row of the `users` table; only the primary key matters to the claims. -/
structure User where
  id : Nat
  deriving Repr, DecidableEq

/-- A row of the `user_roles` association table (model `UserRole`). -/
structure UserRole where
  id : Nat
  user_id : Nat
  role_id : Nat
  assigned_by : Option Nat
  is_active : Bool
  deriving Repr, DecidableEq

/-- The relational store: the three tables plus the autoincrement counters the
database would use to assign fresh primary keys. -/
structure Store where
  users : List User
  roles : List Role
  user_roles : List UserRole
  nextRoleId : Nat
  nextUserRoleId : Nat
  deriving Repr, DecidableEq

/-! ## Permission-set codec

Modelled from the spec: `backend/app/models/role.py` (the `Role` model's
permission codec `get_permissions_list` / `set_permissions_list` /
`add_permission`) is not included under `src/`; only its callers and the test
scripts (`function_test_scripts.py`) are.  The definitions follow spec §4.1:
normalization trims whitespace and drops empty entries, then de-duplicates
keeping first-seen order, then serializes and stores.  Null entries of the
Python input are not representable in `List String`; the spec filters them
exactly like empty entries. -/

/-- Python's `str.strip()`: drop leading and trailing whitespace.  (Defined
over the character list so that it evaluates inside the kernel; Lean's own
`String.trim` is extensionally the same but does not reduce.) -/
def pyStrip (s : String) : String :=
  ⟨((s.data.dropWhile Char.isWhitespace).reverse.dropWhile Char.isWhitespace).reverse⟩

/-- De-duplicate a list keeping the first occurrence of each element. -/
def dedupFirst : List String → List String
  | [] => []
  | x :: xs => x :: dedupFirst (xs.filter (fun y => y != x))
termination_by l => l.length
decreasing_by
  simp only [List.length_cons]
  exact Nat.lt_succ_of_le (List.length_filter_le _ xs)

/-- Modelled from the spec: normalization performed by `set_permissions_list`
(trim, drop empties, de-duplicate first-seen). -/
def normalizePermissions (values : List String) : List String :=
  dedupFirst ((values.map (fun v => pyStrip v)).filter (fun t => t != ""))

/-- Modelled from the spec: `Role.set_permissions_list` normalizes, serializes
and stores the permission list. -/
def set_permissions_list (r : Role) (values : List String) : Role :=
  { r with permissions := some (normalizePermissions values) }

/-- Modelled from the spec: `Role.get_permissions_list` deserializes the
persisted field, returning the empty sequence when it is unset. -/
def get_permissions_list (r : Role) : List String :=
  r.permissions.getD []

/-- Modelled from the spec: `Role.add_permission` trims the input, rejects
(`false`, no mutation) when the trimmed value is empty or already present,
otherwise appends and persists and returns `true`. -/
def add_permission (r : Role) (value : String) : Role × Bool :=
  let t := pyStrip value
  if t = "" then (r, false)
  else
    let ps := get_permissions_list r
    if t ∈ ps then (r, false)
    else ({ r with permissions := some (ps ++ [t]) }, true)

/-- Modelled from the spec: `User.has_role(role_name)` is true iff an active
assignment links the user to an active role of that name (both the assignment
and the role must be active; corroborated by `function_test_scripts.py:402`,
which filters `ur.is_active and ur.role.is_active`). -/
def has_role (s : Store) (uid : Nat) (role_name : String) : Bool :=
  s.user_roles.any (fun a =>
    a.user_id == uid && a.is_active &&
      s.roles.any (fun r => r.id == a.role_id && r.is_active && r.name == role_name))

/-! ## API layer (`backend/app/api/roles_refactored.py`)

Errors carry the HTTP status kind and the `detail` string built by the
handler.  The blanket `except Exception` of every handler turns any other
exception (in particular SQLAlchemy's `MultipleResultsFound` raised by
`scalar_one_or_none` on several matching rows) into a 500 response. -/

inductive ApiErr where
  | notFound (detail : String)
  | badRequest (detail : String)
  | internalError (detail : String)
  deriving Repr, DecidableEq

/-- SQLAlchemy `Result.scalar_one_or_none`: `some none` for zero rows,
`some (some a)` for exactly one row, `none` for the `MultipleResultsFound`
exception. -/
def scalarOneOrNone {α : Type} : List α → Option (Option α)
  | [] => some none
  | [a] => some (some a)
  | _ => none

/-- Fields of `RoleCreateSchema` used by `create_role`. -/
structure RoleCreate where
  name : String
  description : Option String
  permissions : Option (List String)
  is_active : Bool
  deriving Repr, DecidableEq

/-- Fields of `RoleUpdateSchema`; `none` means the field was unset in the
patch (`exclude_unset=True`). -/
structure RoleUpdate where
  name : Option String := none
  description : Option (Option String) := none
  is_active : Option Bool := none
  deriving Repr, DecidableEq

/-- Fields of `UserRoleCreateSchema` used by `assign_role_to_user`. -/
structure UserRoleCreate where
  user_id : Nat
  role_id : Nat
  assigned_by : Option Nat
  is_active : Bool
  deriving Repr, DecidableEq

/-- `create_role`: reject when a role with the same name already exists
(exact match, no `is_active` filter), else insert the new role row.
`now` is the database timestamp for `created_at`. -/
def createRole (s : Store) (now : Nat) (d : RoleCreate) : Except ApiErr (Store × Role) :=
  match scalarOneOrNone (s.roles.filter (fun r => r.name == d.name)) with
  | none => .error (.internalError "Failed to create role")
  | some (some _) =>
      .error (.badRequest ("Role with name '" ++ d.name ++ "' already exists"))
  | some none =>
      let role : Role :=
        { id := s.nextRoleId, name := d.name, description := d.description,
          permissions := d.permissions, is_active := d.is_active, created_at := now }
      .ok ({ s with roles := s.roles ++ [role], nextRoleId := s.nextRoleId + 1 }, role)

/-- The duplicate-name re-check of `update_role`: performed only when the
patch sets a name that is truthy (non-empty — Python `if role_data.name`)
and differs from the current name. -/
def updateNameCheck (s : Store) (role : Role) (d : RoleUpdate) : Except ApiErr Unit :=
  match d.name with
  | none => .ok ()
  | some n =>
    if n = "" ∨ n = role.name then .ok ()
    else
      match scalarOneOrNone (s.roles.filter (fun r2 => r2.name == n)) with
      | none => .error (.internalError "Failed to update role")
      | some (some _) =>
          .error (.badRequest ("Role with name '" ++ n ++ "' already exists"))
      | some none => .ok ()

/-- `update_role`: look up the role, re-check name uniqueness when the name
changes, then patch the set fields. -/
def updateRole (s : Store) (rid : Nat) (d : RoleUpdate) : Except ApiErr (Store × Role) :=
  match scalarOneOrNone (s.roles.filter (fun r => r.id == rid)) with
  | none => .error (.internalError "Failed to update role")
  | some none => .error (.notFound ("Role with ID " ++ toString rid ++ " not found"))
  | some (some role) =>
    match updateNameCheck s role d with
    | .error e => .error e
    | .ok _ =>
      let role2 : Role :=
        { role with
          name := d.name.getD role.name,
          description := d.description.getD role.description,
          is_active := d.is_active.getD role.is_active }
      .ok ({ s with roles := s.roles.map (fun r => if r.id == rid then role2 else r) }, role2)

/-- `delete_role`: look up the role, refuse (400) when active assignments
reference it, else hard-delete the row.  The foreign key
`user_roles.role_id → roles.id` is declared `ondelete='CASCADE'`
(migration `f6f4914742e2`), so the role's assignment rows go with it. -/
def deleteRole (s : Store) (rid : Nat) : Except ApiErr Store :=
  match scalarOneOrNone (s.roles.filter (fun r => r.id == rid)) with
  | none => .error (.internalError "Failed to delete role")
  | some none => .error (.notFound ("Role with ID " ++ toString rid ++ " not found"))
  | some (some role) =>
    let active_users := (s.user_roles.filter (fun a => a.role_id == rid && a.is_active)).length
    if 0 < active_users then
      .error (.badRequest ("Cannot delete role '" ++ role.name ++ "' - it has "
        ++ toString active_users ++ " active users"))
    else
      .ok { s with
        roles := s.roles.filter (fun r => !(r.id == rid)),
        user_roles := s.user_roles.filter (fun a => !(a.role_id == rid)) }

/-- `assign_role_to_user`: validate user and role, then reject when ANY
assignment row for the (user, role) pair exists — the existence query has no
`is_active` filter — else insert a fresh active assignment row.
`current_user` is the authenticated actor recorded when `assigned_by` is
absent. -/
def assignRole (s : Store) (current_user : Nat) (d : UserRoleCreate) :
    Except ApiErr (Store × UserRole) :=
  match scalarOneOrNone (s.users.filter (fun u => u.id == d.user_id)) with
  | none => .error (.internalError "Failed to assign role")
  | some none =>
      .error (.notFound ("User with ID " ++ toString d.user_id ++ " not found"))
  | some (some _) =>
    match scalarOneOrNone (s.roles.filter (fun r => r.id == d.role_id)) with
    | none => .error (.internalError "Failed to assign role")
    | some none =>
        .error (.notFound ("Role with ID " ++ toString d.role_id ++ " not found"))
    | some (some _) =>
      match scalarOneOrNone
          (s.user_roles.filter (fun a => a.user_id == d.user_id && a.role_id == d.role_id)) with
      | none => .error (.internalError "Failed to assign role")
      | some (some _) => .error (.badRequest "User already has this role assigned")
      | some none =>
        let a : UserRole :=
          { id := s.nextUserRoleId, user_id := d.user_id, role_id := d.role_id,
            assigned_by := some (d.assigned_by.getD current_user),
            is_active := d.is_active }
        .ok ({ s with user_roles := s.user_roles ++ [a],
                      nextUserRoleId := s.nextUserRoleId + 1 }, a)

/-- Soft revoke of an assignment: set `is_active = False` on the row, keeping
it (as done in `function_test_scripts.py:421`). -/
def revokeAssignment (s : Store) (aid : Nat) : Store :=
  { s with user_roles :=
      s.user_roles.map (fun a => if a.id == aid then { a with is_active := false } else a) }

/-! ## Storage-layer unique constraint (migrations `7f91e9655315` and
`0e9150a01e7e`) -/

/-- Columns of the unique constraint `uq_user_roles_user_role_active` on
table `user_roles`. -/
def uqUserRolesColumns : List String := ["user_id", "role_id", "is_active"]

/-- The column tuple the constraint compares. -/
def uqKey (a : UserRole) : Nat × Nat × Bool := (a.user_id, a.role_id, a.is_active)

/-- The constraint `UNIQUE (user_id, role_id, is_active)` holds of a table
state iff no two rows agree on all three columns. -/
def uqUserRolesUserRoleActive (rows : List UserRole) : Prop :=
  (rows.map uqKey).Nodup

instance (rows : List UserRole) : Decidable (uqUserRolesUserRoleActive rows) :=
  List.nodupDecidable _

/-! ## Listing (`get_roles`)

`get_roles` renders `WHERE ... ORDER BY created_at DESC LIMIT limit OFFSET
skip`; SQL applies the ordering before the pagination whatever the order of
the generative method calls.  The `search` parameter is wrapped as the ILIKE
pattern `%search%`, so `%` and `_` inside the search string act as SQL
wildcards. -/

/-- SQL `LIKE` matching, case-insensitive (`ILIKE`): `%` matches any
sequence (some suffix of the candidate continues the match), `_` matches any
single character, other pattern characters match case-insensitively.  First
argument is the pattern, second the candidate. -/
def likeMatch : List Char → List Char → Bool
  | [], cs => cs.isEmpty
  | p :: ps, cs =>
    if p = '%' then
      cs.tails.any (fun suf => likeMatch ps suf)
    else
      match cs with
      | [] => false
      | c :: cs2 => (p == '_' || p.toLower == c.toLower) && likeMatch ps cs2

/-- `column ILIKE pattern` over a nullable column: NULL never matches. -/
def ilikeOpt : Option String → List Char → Bool
  | none, _ => false
  | some v, pat => likeMatch pat v.toList

/-- The search condition of `get_roles`: `name ILIKE '%t%' OR description
ILIKE '%t%'`. -/
def searchFilter (t : String) (r : Role) : Bool :=
  likeMatch ("%" ++ t ++ "%").toList r.name.toList ||
    ilikeOpt r.description ("%" ++ t ++ "%").toList

/-- `ORDER BY created_at DESC` as a relation on role rows. -/
def createdAtGE (a b : Role) : Prop := b.created_at ≤ a.created_at

instance : DecidableRel createdAtGE := fun a b => Nat.decLe b.created_at a.created_at

instance : IsTotal Role createdAtGE := ⟨fun a b => Nat.le_total b.created_at a.created_at⟩

instance : IsTrans Role createdAtGE := ⟨fun _ _ _ hab hbc => Nat.le_trans hbc hab⟩

/-- Declared default of the `skip` query parameter (`Query(0, ge=0)`). -/
def getRolesDefaultSkip : Nat := 0

/-- Declared default of the `limit` query parameter (`Query(100, ge=1, le=1000)`). -/
def getRolesDefaultLimit : Nat := 100

/-- Declared lower bound of `limit`. -/
def getRolesMinLimit : Nat := 1

/-- Declared upper bound of `limit`. -/
def getRolesMaxLimit : Nat := 1000

/-- `get_roles`: optional `is_active` filter, optional ILIKE search filter
(skipped for an absent or empty search string — Python `if search:`), order
by `created_at` descending, then `OFFSET skip LIMIT limit`. -/
def getRoles (roles : List Role) (skip limit : Nat) (active_only : Bool)
    (search : Option String) : List Role :=
  let q1 := if active_only then roles.filter (fun r => r.is_active) else roles
  let q2 := match search with
            | some t => if t = "" then q1 else q1.filter (searchFilter t)
            | none => q1
  ((List.insertionSort createdAtGE q2).drop skip).take limit

/-! ## Statistics (`get_role_statistics`)

The popular-roles query inner-joins `roles` to `user_roles` on
`role_id`, keeps joined rows with `user_roles.is_active`, groups by
`(roles.id, name, description)`, counts rows per group, orders by the count
descending and keeps 5 groups.  The floating-point
`round(avg(length(permissions)), 2)` of `permission_stats` is outside the
embedding; the integer `roles_with_permissions` count is kept. -/

/-- The `GROUP BY` key `(roles.id, roles.name, roles.description)`. -/
def roleKey (r : Role) : Nat × String × Option String := (r.id, r.name, r.description)

/-- Number of active assignment rows referencing a role. -/
def activeAssignmentCount (ur : List UserRole) (r : Role) : Nat :=
  (ur.filter (fun a => a.is_active && a.role_id == r.id)).length

/-- The inner join `roles ⋈ user_roles` restricted to active assignments,
each joined row projected to its group key. -/
def activeJoinedKeys (roles : List Role) (ur : List UserRole) :
    List (Nat × String × Option String) :=
  roles.flatMap (fun r =>
    (ur.filter (fun a => a.is_active && a.role_id == r.id)).map (fun _ => roleKey r))

/-- `ORDER BY count DESC` on the grouped rows. -/
def countGE (a b : (Nat × String × Option String) × Nat) : Prop := b.2 ≤ a.2

instance : DecidableRel countGE := fun a b => Nat.decLe b.2 a.2

instance : IsTotal ((Nat × String × Option String) × Nat) countGE :=
  ⟨fun a b => Nat.le_total b.2 a.2⟩

instance : IsTrans ((Nat × String × Option String) × Nat) countGE :=
  ⟨fun _ _ _ hab hbc => Nat.le_trans hbc hab⟩

/-- Group the joined rows by key, count each group, order by the count
descending and keep the top 5 groups. -/
def popularGroups (roles : List Role) (ur : List UserRole) :
    List ((Nat × String × Option String) × Nat) :=
  (List.insertionSort countGE
    ((activeJoinedKeys roles ur).dedup.map
      (fun k => (k, (activeJoinedKeys roles ur).count k)))).take 5

/-- The response of `get_role_statistics` (float average omitted). -/
structure RoleStatistics where
  total_roles : Nat
  active_roles : Nat
  inactive_roles : Nat
  popular_roles : List (String × Option String × Nat)
  roles_with_permissions : Nat
  deriving Repr, DecidableEq

/-- `get_role_statistics`: total count, active count, their difference, the
popular-roles list projected to `(name, description, user_count)`, and the
count of roles with a non-NULL permissions field. -/
def getRoleStatistics (s : Store) : RoleStatistics :=
  let total := s.roles.length
  let active := (s.roles.filter (fun r => r.is_active)).length
  { total_roles := total,
    active_roles := active,
    inactive_roles := total - active,
    popular_roles :=
      (popularGroups s.roles s.user_roles).map (fun g => (g.1.2.1, g.1.2.2, g.2)),
    roles_with_permissions := (s.roles.filter (fun r => r.permissions.isSome)).length }

/-! ## Spec-side search predicate

The spec describes the search as a case-insensitive substring match against
`name` or `description`.  These definitions follow the spec's words; the
theorems compare them with the source-side ILIKE matching above. -/

/-- The characters of a string, lower-cased. -/
def lowerChars (s : String) : List Char := s.toList.map Char.toLower

/-- Case-insensitive substring containment, as the spec words it. -/
def containsCI (hay pat : String) : Prop :=
  List.IsInfix (lowerChars pat) (lowerChars hay)

instance (hay pat : String) : Decidable (containsCI hay pat) :=
  List.decidableInfix _ _

/-- Boolean form of `containsCI`. -/
def containsCIb (hay pat : String) : Bool := decide (containsCI hay pat)

/-- Spec-side search condition: the search term occurs case-insensitively in
the name or in the (non-NULL) description. -/
def roleMatchesSearch (t : String) (r : Role) : Bool :=
  containsCIb r.name t ||
    (match r.description with
     | none => false
     | some dsc => containsCIb dsc t)

/-! ## Concrete fixtures used by witnesses and counterexamples -/

/-- A user row. -/
def userOne : User := { id := 1 }

/-- An active role row named `editor`. -/
def editorRow : Role :=
  { id := 1, name := "editor", description := none, permissions := none,
    is_active := true, created_at := 0 }

/-- A store holding one user, one role, and one INACTIVE (revoked) assignment
linking them. -/
def storeRevoked : Store :=
  { users := [userOne],
    roles := [editorRow],
    user_roles := [{ id := 1, user_id := 1, role_id := 1, assigned_by := some 1,
                     is_active := false }],
    nextRoleId := 2, nextUserRoleId := 2 }

/-- The assignment request for the pair already covered by the revoked row of
`storeRevoked`. -/
def assignReqEditor : UserRoleCreate :=
  { user_id := 1, role_id := 1, assigned_by := none, is_active := true }

/-- Two distinct revoked rows for the same (user, role) pair. -/
def inactiveRowA : UserRole :=
  { id := 1, user_id := 1, role_id := 1, assigned_by := none, is_active := false }

/-- Second revoked row for the same pair as `inactiveRowA`. -/
def inactiveRowB : UserRole :=
  { id := 2, user_id := 1, role_id := 1, assigned_by := none, is_active := false }

/-- An active row for the pair of `inactiveRowA`. -/
def activeRowA : UserRole :=
  { id := 3, user_id := 1, role_id := 1, assigned_by := none, is_active := true }

/-- A role with some permissions, for the codec witnesses. -/
def roleEditor : Role :=
  { id := 1, name := "editor", description := some "Editor role",
    permissions := some ["doc:read"], is_active := true, created_at := 0 }

/-- A store where the only role named `admin` is administratively disabled
although an active assignment references it. -/
def storeDisabledAdmin : Store :=
  { users := [{ id := 1 }],
    roles := [{ id := 1, name := "admin", description := none, permissions := none,
                is_active := false, created_at := 0 }],
    user_roles := [{ id := 1, user_id := 1, role_id := 1, assigned_by := some 1,
                     is_active := true }],
    nextRoleId := 2, nextUserRoleId := 2 }

/-- An active role row named `admin`. -/
def adminRow : Role :=
  { id := 1, name := "admin", description := some "Administrator",
    permissions := some ["*"], is_active := true, created_at := 10 }

/-- An inactive role row named `guest`. -/
def guestRow : Role :=
  { id := 2, name := "guest", description := none, permissions := none,
    is_active := false, created_at := 20 }

/-- A store with two roles (one inactive) and one active assignment on the
`admin` role, used by the role CRUD and statistics witnesses. -/
def storeTwoRoles : Store :=
  { users := [userOne],
    roles := [adminRow, guestRow],
    user_roles := [{ id := 1, user_id := 1, role_id := 1, assigned_by := some 1,
                     is_active := true }],
    nextRoleId := 3, nextUserRoleId := 2 }

/-- A single active role named `abc` with no description. -/
def roleAbc : Role :=
  { id := 1, name := "abc", description := none, permissions := none,
    is_active := true, created_at := 0 }

/-! ## Codec lemmas -/

theorem mem_dedupFirst {y : String} : ∀ {l : List String}, y ∈ dedupFirst l ↔ y ∈ l := by
  intro l
  induction l using dedupFirst.induct with
  | case1 => simp [dedupFirst]
  | case2 x xs ih =>
    rw [dedupFirst]
    by_cases hyx : y = x
    · subst hyx; simp
    · simp only [List.mem_cons, hyx, false_or, ih, List.mem_filter]
      constructor
      · rintro ⟨h, -⟩; exact h
      · intro h; exact ⟨h, by simp [hyx]⟩

theorem nodup_dedupFirst : ∀ (l : List String), (dedupFirst l).Nodup := by
  intro l
  induction l using dedupFirst.induct with
  | case1 => simp [dedupFirst]
  | case2 x xs ih =>
    rw [dedupFirst]
    refine List.nodup_cons.mpr ⟨?_, ih⟩
    intro hx
    have := (mem_dedupFirst).mp hx
    simp [List.mem_filter] at this

theorem sublist_dedupFirst : ∀ (l : List String), List.Sublist (dedupFirst l) l := by
  intro l
  induction l using dedupFirst.induct with
  | case1 => simp [dedupFirst]
  | case2 x xs ih =>
    rw [dedupFirst]
    exact (ih.trans (List.filter_sublist xs)).cons₂ x

/-! ## Claim C3 -/

/-- C3: for every role and permission list, `set_permissions_list` followed by
`get_permissions_list` returns the input with entries whitespace-trimmed,
empty entries dropped and duplicates collapsed keeping first-seen order (the
result is a duplicate-free sublist of the trimmed non-empty entries in input
order, containing exactly the non-empty trimmed values), and calling
`set_permissions_list` twice with the same input persists the same serialized
value (idempotence). -/
theorem c3_permissions_roundtrip (r : Role) (L : List String) :
    get_permissions_list (set_permissions_list r L) = normalizePermissions L
    ∧ List.Sublist (normalizePermissions L)
        ((L.map (fun v => pyStrip v)).filter (fun t => t != ""))
    ∧ (normalizePermissions L).Nodup
    ∧ (∀ y, y ∈ normalizePermissions L ↔ (y ≠ "" ∧ ∃ x ∈ L, pyStrip x = y))
    ∧ (set_permissions_list (set_permissions_list r L) L).permissions
        = (set_permissions_list r L).permissions := by
  refine ⟨rfl, sublist_dedupFirst _, nodup_dedupFirst _, ?_, rfl⟩
  intro y
  rw [normalizePermissions, mem_dedupFirst, List.mem_filter]
  simp only [List.mem_map, bne_iff_ne, ne_eq]
  tauto

/-! ## Claim C4 -/

/-- C4: `add_permission` trims its input, rejects (`false`, no mutation) when
the trimmed value is empty or already present, and otherwise appends the
trimmed value, persists and returns `true`; hence two consecutive calls with
the same fresh value return `true` then `false` and leave the value present
exactly once, and empty or whitespace-only input never mutates the set. -/
theorem c4_add_permission (r : Role) (v : String) :
    (pyStrip v = "" → add_permission r v = (r, false))
    ∧ (pyStrip v ∈ get_permissions_list r → add_permission r v = (r, false))
    ∧ (pyStrip v ≠ "" → pyStrip v ∉ get_permissions_list r →
        (add_permission r v).2 = true
        ∧ get_permissions_list (add_permission r v).1
            = get_permissions_list r ++ [pyStrip v]
        ∧ add_permission (add_permission r v).1 v = ((add_permission r v).1, false)
        ∧ (get_permissions_list (add_permission r v).1).count (pyStrip v) = 1) := by
  refine ⟨fun h => by simp [add_permission, h], fun h => ?_, fun h1 h2 => ?_⟩
  · by_cases h0 : pyStrip v = ""
    · simp [add_permission, h0]
    · simp [add_permission, h0, h]
  · have hres : add_permission r v
        = ({ r with permissions := some (get_permissions_list r ++ [pyStrip v]) }, true) := by
      simp [add_permission, h1, h2]
    refine ⟨by rw [hres], by rw [hres]; rfl, ?_, ?_⟩
    · rw [hres]
      simp [add_permission, h1, get_permissions_list]
    · rw [hres]
      simp only [get_permissions_list, Option.getD_some]
      rw [List.count_append]
      have h2' : List.count (pyStrip v) (r.permissions.getD []) = 0 :=
        List.count_eq_zero.mpr h2
      rw [h2']
      simp

/-- Concrete run of C4: adding `doc:write` to `roleEditor` twice succeeds then
fails and leaves one copy. -/
theorem c4_add_permission_witness :
    pyStrip "doc:write" ≠ ""
    ∧ pyStrip "doc:write" ∉ get_permissions_list roleEditor
    ∧ (add_permission roleEditor "doc:write").2 = true
    ∧ add_permission (add_permission roleEditor "doc:write").1 "doc:write"
        = ((add_permission roleEditor "doc:write").1, false)
    ∧ (get_permissions_list
        (add_permission roleEditor "doc:write").1).count (pyStrip "doc:write") = 1 := by
  have h1 : pyStrip "doc:write" ≠ "" := by decide
  have h2 : pyStrip "doc:write" ∉ get_permissions_list roleEditor := by decide
  have h3 := (c4_add_permission roleEditor "doc:write").2.2 h1 h2
  exact ⟨h1, h2, h3.1, h3.2.2.1, h3.2.2.2⟩

/-! ## Claim C5 -/

/-- C5: `has_role` is true iff an active assignment links the user to an
active role of the given name; in particular when every role of that name is
administratively disabled, `has_role` is false even if an active assignment
points at such a role. -/
theorem c5_has_role (s : Store) (uid : Nat) (n : String) :
    (has_role s uid n = true ↔
      ∃ a ∈ s.user_roles, a.user_id = uid ∧ a.is_active = true ∧
        ∃ r ∈ s.roles, r.id = a.role_id ∧ r.is_active = true ∧ r.name = n)
    ∧ ((∀ r ∈ s.roles, r.name = n → r.is_active = false) → has_role s uid n = false) := by
  have hiff : has_role s uid n = true ↔
      ∃ a ∈ s.user_roles, a.user_id = uid ∧ a.is_active = true ∧
        ∃ r ∈ s.roles, r.id = a.role_id ∧ r.is_active = true ∧ r.name = n := by
    simp only [has_role, List.any_eq_true, Bool.and_eq_true, beq_iff_eq]
    tauto
  refine ⟨hiff, fun h => ?_⟩
  cases hb : has_role s uid n with
  | false => rfl
  | true =>
    exfalso
    obtain ⟨a, -, -, -, r, hr, -, hact, hname⟩ := hiff.mp hb
    rw [h r hr hname] at hact
    exact Bool.false_ne_true hact

/-- Concrete run of C5: an active assignment to the disabled `admin` role
confers no grant. -/
theorem c5_has_role_witness :
    (∀ r ∈ storeDisabledAdmin.roles, r.name = "admin" → r.is_active = false)
    ∧ has_role storeDisabledAdmin 1 "admin" = false :=
  ⟨by decide, (c5_has_role storeDisabledAdmin 1 "admin").2 (by decide)⟩

/-! ## Claim C1 -/

/-- C1 counterexample: in `storeRevoked` the only assignment row for the pair
(user 1, role 1) is inactive (revoked), yet `assign` fails with the conflict
error instead of inserting a fresh row — the existence check of
`assign_role_to_user` (`roles_refactored.py:489`) carries no `is_active`
filter, contradicting the claim that the call succeeds after a revoke. -/
theorem c1_assign_after_revoke_counterexample :
    assignRole storeRevoked 1 assignReqEditor
      = .error (.badRequest "User already has this role assigned")
    ∧ storeRevoked.user_roles.filter
        (fun a => a.user_id == 1 && a.role_id == 1 && a.is_active) = [] :=
  ⟨rfl, rfl⟩

/-- C1 amended: `assign` fails with the conflict error iff ANY assignment row
for the (user, role) pair exists, active or revoked (given the pair occurs at
most once in the table); a fresh row with the next store-assigned id is
inserted only when no row for the pair exists at all.  In particular a
revoked pair still blocks re-assignment. -/
theorem c1_assign_conflict_amended (s : Store) (cu : Nat) (d : UserRoleCreate)
    (u : User) (r : Role)
    (hu : s.users.filter (fun x => x.id == d.user_id) = [u])
    (hr : s.roles.filter (fun x => x.id == d.role_id) = [r])
    (ha : (s.user_roles.filter
        (fun a => a.user_id == d.user_id && a.role_id == d.role_id)).length ≤ 1) :
    (assignRole s cu d = .error (.badRequest "User already has this role assigned")
      ↔ ∃ a ∈ s.user_roles, a.user_id = d.user_id ∧ a.role_id = d.role_id)
    ∧ (s.user_roles.filter
        (fun a => a.user_id == d.user_id && a.role_id == d.role_id) = [] →
      assignRole s cu d = .ok
        ({ s with
            user_roles := s.user_roles ++
              [{ id := s.nextUserRoleId, user_id := d.user_id, role_id := d.role_id,
                 assigned_by := some (d.assigned_by.getD cu), is_active := d.is_active }],
            nextUserRoleId := s.nextUserRoleId + 1 },
          { id := s.nextUserRoleId, user_id := d.user_id, role_id := d.role_id,
            assigned_by := some (d.assigned_by.getD cu), is_active := d.is_active })) := by
  have hmem : ∀ a : UserRole,
      a ∈ s.user_roles.filter (fun a => a.user_id == d.user_id && a.role_id == d.role_id)
        ↔ a ∈ s.user_roles ∧ a.user_id = d.user_id ∧ a.role_id = d.role_id := by
    intro a
    simp [List.mem_filter]
  cases hF : s.user_roles.filter (fun a => a.user_id == d.user_id && a.role_id == d.role_id) with
  | nil =>
    have hok : assignRole s cu d = .ok
        ({ s with
            user_roles := s.user_roles ++
              [{ id := s.nextUserRoleId, user_id := d.user_id, role_id := d.role_id,
                 assigned_by := some (d.assigned_by.getD cu), is_active := d.is_active }],
            nextUserRoleId := s.nextUserRoleId + 1 },
          { id := s.nextUserRoleId, user_id := d.user_id, role_id := d.role_id,
            assigned_by := some (d.assigned_by.getD cu), is_active := d.is_active }) := by
      simp [assignRole, hu, hr, hF, scalarOneOrNone]
    refine ⟨?_, fun _ => hok⟩
    rw [hok]
    constructor
    · intro h; exact absurd h (by simp)
    · rintro ⟨a, haU, h1, h2⟩
      have : a ∈ ([] : List UserRole) := hF ▸ (hmem a).mpr ⟨haU, h1, h2⟩
      simp at this
  | cons a0 as =>
    have has : as = [] := by
      have hlen := ha
      rw [hF] at hlen
      simpa using hlen
    subst has
    have herr : assignRole s cu d
        = .error (.badRequest "User already has this role assigned") := by
      simp [assignRole, hu, hr, hF, scalarOneOrNone]
    refine ⟨?_, fun hnil => ?_⟩
    · rw [herr]
      constructor
      · intro _
        have h0 : a0 ∈ s.user_roles.filter
            (fun a => a.user_id == d.user_id && a.role_id == d.role_id) := by
          rw [hF]; exact List.mem_cons_self a0 []
        obtain ⟨hU, h1, h2⟩ := (hmem a0).mp h0
        exact ⟨a0, hU, h1, h2⟩
      · intro _; rfl
    · exact absurd hnil (by simp)

/-- Concrete run of the amended C1 on `storeRevoked`: the single revoked row
makes `assign` fail with the conflict error. -/
theorem c1_assign_conflict_amended_witness :
    storeRevoked.users.filter (fun x => x.id == assignReqEditor.user_id) = [userOne]
    ∧ storeRevoked.roles.filter (fun x => x.id == assignReqEditor.role_id) = [editorRow]
    ∧ (storeRevoked.user_roles.filter
        (fun a => a.user_id == assignReqEditor.user_id
          && a.role_id == assignReqEditor.role_id)).length ≤ 1
    ∧ (assignRole storeRevoked 1 assignReqEditor
        = .error (.badRequest "User already has this role assigned")
      ↔ ∃ a ∈ storeRevoked.user_roles,
          a.user_id = assignReqEditor.user_id ∧ a.role_id = assignReqEditor.role_id) :=
  ⟨by decide, by decide, by decide,
    (c1_assign_conflict_amended storeRevoked 1 assignReqEditor userOne editorRow
      (by decide) (by decide) (by decide)).1⟩

/-! ## Claim C2 -/

/-- C2 counterexample: the migrations' constraint
`UNIQUE (user_id, role_id, is_active)` rejects a table state holding two
distinct inactive (revoked) rows for the same (user, role) pair, so the
constraint does NOT permit re-grant history to accumulate as the claim
states. -/
theorem c2_unique_constraint_counterexample :
    uqUserRolesColumns = ["user_id", "role_id", "is_active"]
    ∧ inactiveRowA.user_id = inactiveRowB.user_id
    ∧ inactiveRowA.role_id = inactiveRowB.role_id
    ∧ inactiveRowA.is_active = false
    ∧ inactiveRowB.is_active = false
    ∧ inactiveRowA ≠ inactiveRowB
    ∧ ¬ uqUserRolesUserRoleActive [inactiveRowA, inactiveRowB] :=
  ⟨rfl, rfl, rfl, rfl, rfl, by decide, by decide⟩

/-- C2 amended: the storage-layer constraint
`UNIQUE (user_id, role_id, is_active)` guarantees that no two rows share the
same (user, role) pair with both active — and equally that no two rows share
the same pair with both inactive: at most one active and one revoked row per
pair, so re-grant history beyond a single revoked row cannot accumulate. -/
theorem c2_unique_constraint_amended (rows : List UserRole)
    (h : uqUserRolesUserRoleActive rows) :
    List.Pairwise (fun a b =>
      ¬(a.user_id = b.user_id ∧ a.role_id = b.role_id
        ∧ a.is_active = true ∧ b.is_active = true)) rows
    ∧ List.Pairwise (fun a b =>
      ¬(a.user_id = b.user_id ∧ a.role_id = b.role_id
        ∧ a.is_active = false ∧ b.is_active = false)) rows := by
  have hp : List.Pairwise (fun a b => uqKey a ≠ uqKey b) rows := by
    rw [uqUserRolesUserRoleActive, List.Nodup, List.pairwise_map] at h
    exact h
  constructor
  · refine hp.imp ?_
    rintro a b hne ⟨h1, h2, h3, h4⟩
    exact hne (by simp [uqKey, h1, h2, h3, h4])
  · refine hp.imp ?_
    rintro a b hne ⟨h1, h2, h3, h4⟩
    exact hne (by simp [uqKey, h1, h2, h3, h4])

/-- Concrete run of the amended C2: one active plus one revoked row for the
same pair satisfies the constraint and the pairwise exclusions. -/
theorem c2_unique_constraint_amended_witness :
    uqUserRolesUserRoleActive [activeRowA, inactiveRowA]
    ∧ List.Pairwise (fun a b =>
      ¬(a.user_id = b.user_id ∧ a.role_id = b.role_id
        ∧ a.is_active = true ∧ b.is_active = true)) [activeRowA, inactiveRowA]
    ∧ List.Pairwise (fun a b =>
      ¬(a.user_id = b.user_id ∧ a.role_id = b.role_id
        ∧ a.is_active = false ∧ b.is_active = false)) [activeRowA, inactiveRowA] := by
  have h := c2_unique_constraint_amended [activeRowA, inactiveRowA] (by decide)
  exact ⟨by decide, h.1, h.2⟩

/-! ## Role CRUD lemmas -/

theorem scalarOneOrNone_eq_some_some {α : Type} {l : List α} {a : α} :
    scalarOneOrNone l = some (some a) ↔ l = [a] := by
  cases l with
  | nil => simp [scalarOneOrNone]
  | cons x t =>
    cases t with
    | nil => simp [scalarOneOrNone]
    | cons y u => simp [scalarOneOrNone]

/-! ## Claim C6 -/

/-- C6: deleting an existing role is refused with the 400 "Cannot delete"
error exactly when at least one active assignment row references it (the
handler returns before any delete, so the role row is untouched), and with no
active assignments the role row is hard-deleted, its remaining assignment
rows cascading away with it. -/
theorem c6_delete_role_blocked (s : Store) (rid : Nat) (r : Role)
    (h : s.roles.filter (fun x => x.id == rid) = [r]) :
    (0 < (s.user_roles.filter (fun a => a.role_id == rid && a.is_active)).length →
      deleteRole s rid = .error (.badRequest ("Cannot delete role '" ++ r.name
        ++ "' - it has "
        ++ toString
            (s.user_roles.filter (fun a => a.role_id == rid && a.is_active)).length
        ++ " active users")))
    ∧ ((s.user_roles.filter (fun a => a.role_id == rid && a.is_active)).length = 0 →
      deleteRole s rid = .ok { s with
          roles := s.roles.filter (fun x => !(x.id == rid)),
          user_roles := s.user_roles.filter (fun a => !(a.role_id == rid)) }
      ∧ ∀ x ∈ s.roles.filter (fun x => !(x.id == rid)), x.id ≠ rid) := by
  constructor
  · intro hpos
    simp [deleteRole, h, scalarOneOrNone, hpos]
  · intro hzero
    refine ⟨by simp [deleteRole, h, scalarOneOrNone, hzero], ?_⟩
    intro x hx
    have hmem := List.mem_filter.mp hx
    simpa using hmem.2

/-- Concrete run of C6 on `storeTwoRoles`: the `admin` role has one active
assignment, so its deletion is refused. -/
theorem c6_delete_role_blocked_witness :
    storeTwoRoles.roles.filter (fun x => x.id == 1) = [adminRow]
    ∧ 0 < (storeTwoRoles.user_roles.filter
        (fun a => a.role_id == 1 && a.is_active)).length
    ∧ deleteRole storeTwoRoles 1
        = .error (.badRequest ("Cannot delete role '" ++ adminRow.name
          ++ "' - it has "
          ++ toString (storeTwoRoles.user_roles.filter
              (fun a => a.role_id == 1 && a.is_active)).length
          ++ " active users")) :=
  ⟨by decide, by decide,
    (c6_delete_role_blocked storeTwoRoles 1 adminRow (by decide)).1 (by decide)⟩

/-! ## Claim C7 -/

/-- C7: role creation conflicts exactly when some existing role bears the
same name, by exact (case-sensitive) string comparison and regardless of any
`is_active` flag; a role update re-checks that uniqueness only when the patch
changes the name, and the conflicting role is necessarily a role other than
the one being updated. -/
theorem c7_role_name_uniqueness (s : Store) (now : Nat) (d : RoleCreate)
    (du : RoleUpdate) (rid : Nat) (r : Role) (n : String)
    (h1 : s.roles.filter (fun x => x.id == rid) = [r])
    (h2 : (s.roles.filter (fun x => x.name == d.name)).length ≤ 1)
    (h3 : du.name = some n) (h4 : n ≠ "") (h5 : n ≠ r.name)
    (h6 : (s.roles.filter (fun x => x.name == n)).length ≤ 1) :
    (createRole s now d
        = .error (.badRequest ("Role with name '" ++ d.name ++ "' already exists"))
      ↔ ∃ x ∈ s.roles, x.name = d.name)
    ∧ (updateRole s rid du
        = .error (.badRequest ("Role with name '" ++ n ++ "' already exists"))
      ↔ ∃ x ∈ s.roles, x.name = n ∧ x ≠ r)
    ∧ (∀ (du2 : RoleUpdate) (e : String),
        updateRole s rid du2 = .error (.badRequest e) →
        ∃ n2, du2.name = some n2 ∧ n2 ≠ "" ∧ n2 ≠ r.name
          ∧ ∃ x ∈ s.roles, x.name = n2 ∧ x ≠ r) := by
  have hid : scalarOneOrNone (s.roles.filter (fun x => x.id == rid)) = some (some r) := by
    rw [h1]; rfl
  refine ⟨?_, ?_, ?_⟩
  · cases hC : s.roles.filter (fun x => x.name == d.name) with
    | nil =>
      constructor
      · intro h
        simp [createRole, hC, scalarOneOrNone] at h
      · rintro ⟨x, hx, hname⟩
        have : x ∈ s.roles.filter (fun y => y.name == d.name) :=
          List.mem_filter.mpr ⟨hx, by simp [hname]⟩
        rw [hC] at this
        simp at this
    | cons x0 xs =>
      have hxs : xs = [] := by
        have hlen := h2
        rw [hC] at hlen
        simpa using hlen
      subst hxs
      constructor
      · intro _
        have h0 : x0 ∈ s.roles.filter (fun y => y.name == d.name) := by
          rw [hC]; exact List.mem_cons_self x0 []
        have := List.mem_filter.mp h0
        exact ⟨x0, this.1, by simpa using this.2⟩
      · intro _
        simp [createRole, hC, scalarOneOrNone]
  · cases hC : s.roles.filter (fun x => x.name == n) with
    | nil =>
      constructor
      · intro h
        simp [updateRole, h1, updateNameCheck, h3, h4, h5, hC, scalarOneOrNone] at h
      · rintro ⟨x, hx, hname, -⟩
        have : x ∈ s.roles.filter (fun y => y.name == n) :=
          List.mem_filter.mpr ⟨hx, by simp [hname]⟩
        rw [hC] at this
        simp at this
    | cons x0 xs =>
      have hxs : xs = [] := by
        have hlen := h6
        rw [hC] at hlen
        simpa using hlen
      subst hxs
      constructor
      · intro _
        have h0 : x0 ∈ s.roles.filter (fun y => y.name == n) := by
          rw [hC]; exact List.mem_cons_self x0 []
        have hm := List.mem_filter.mp h0
        have hname : x0.name = n := by simpa using hm.2
        refine ⟨x0, hm.1, hname, fun hx0r => ?_⟩
        rw [hx0r] at hname
        exact h5 hname.symm
      · intro _
        simp [updateRole, h1, updateNameCheck, h3, h4, h5, hC, scalarOneOrNone]
  · intro du2 e herr
    cases hdn : du2.name with
    | none =>
      simp [updateRole, hid, updateNameCheck, hdn] at herr
    | some n2 =>
      by_cases hc1 : n2 = ""
      · simp [updateRole, hid, updateNameCheck, hdn, hc1] at herr
      · by_cases hc2 : n2 = r.name
        · simp [updateRole, hid, updateNameCheck, hdn, hc1, hc2] at herr
        · cases hS : scalarOneOrNone (s.roles.filter (fun r2 => r2.name == n2)) with
          | none =>
            simp [updateRole, hid, updateNameCheck, hdn, hc1, hc2, hS] at herr
          | some o =>
            cases o with
            | none =>
              simp [updateRole, hid, updateNameCheck, hdn, hc1, hc2, hS] at herr
            | some x =>
              have hfx : s.roles.filter (fun r2 => r2.name == n2) = [x] :=
                scalarOneOrNone_eq_some_some.mp hS
              have h0 : x ∈ s.roles.filter (fun r2 => r2.name == n2) := by
                rw [hfx]; exact List.mem_cons_self x []
              have hm := List.mem_filter.mp h0
              have hname : x.name = n2 := by simpa using hm.2
              refine ⟨n2, rfl, hc1, hc2, x, hm.1, hname, fun hxr => ?_⟩
              rw [hxr] at hname
              exact hc2 hname.symm

/-- Concrete run of C7 on `storeTwoRoles`: creating a role named `guest`
conflicts although the existing `guest` role is inactive. -/
theorem c7_role_name_uniqueness_witness :
    storeTwoRoles.roles.filter (fun x => x.id == 1) = [adminRow]
    ∧ (storeTwoRoles.roles.filter (fun x => x.name == "guest")).length ≤ 1
    ∧ guestRow.is_active = false
    ∧ (createRole storeTwoRoles 99
          { name := "guest", description := none, permissions := none, is_active := true }
        = .error (.badRequest ("Role with name '" ++ "guest" ++ "' already exists"))
      ↔ ∃ x ∈ storeTwoRoles.roles, x.name = "guest") :=
  ⟨by decide, by decide, rfl,
    (c7_role_name_uniqueness storeTwoRoles 99
      { name := "guest", description := none, permissions := none, is_active := true }
      { name := some "guest" } 1 adminRow "guest"
      (by decide) (by decide) rfl (by decide) (by decide) (by decide)).1⟩

/-! ## Statistics lemmas -/

theorem activeJoinedKeys_cons (r : Role) (rs : List Role) (ur : List UserRole) :
    activeJoinedKeys (r :: rs) ur
      = List.replicate (activeAssignmentCount ur r) (roleKey r)
        ++ activeJoinedKeys rs ur := by
  simp [activeJoinedKeys, activeAssignmentCount, List.map_const']

theorem count_activeJoinedKeys_eq_zero (ur : List UserRole)
    (k : Nat × String × Option String) :
    ∀ (rs : List Role), (∀ r2 ∈ rs, r2.id ≠ k.1) →
      (activeJoinedKeys rs ur).count k = 0 := by
  intro rs
  induction rs with
  | nil => intro _; simp [activeJoinedKeys]
  | cons r0 rs ih =>
    intro h
    rw [activeJoinedKeys_cons, List.count_append, List.count_replicate]
    have hne : (roleKey r0 == k) = false := by
      have : roleKey r0 ≠ k := by
        intro he
        exact h r0 (List.mem_cons_self r0 rs) (by rw [← he]; rfl)
      simpa using this
    rw [hne]
    simp only [if_false, Bool.false_eq_true]
    rw [ih (fun r2 h2 => h r2 (List.mem_cons_of_mem r0 h2))]

theorem count_activeJoinedKeys (ur : List UserRole) :
    ∀ (rs : List Role), (rs.map (fun r => r.id)).Nodup → ∀ r ∈ rs,
      (activeJoinedKeys rs ur).count (roleKey r) = activeAssignmentCount ur r := by
  intro rs
  induction rs with
  | nil => intro _ r hr; simp at hr
  | cons r0 rs ih =>
    intro hnd r hr
    rw [List.map_cons, List.nodup_cons] at hnd
    rw [activeJoinedKeys_cons, List.count_append]
    rcases List.mem_cons.mp hr with hr0 | hrs
    · subst hr0
      rw [List.count_replicate_self]
      have hzero : (activeJoinedKeys rs ur).count (roleKey r) = 0 := by
        refine count_activeJoinedKeys_eq_zero ur (roleKey r) rs ?_
        intro r2 h2 hcontra
        have hcontra2 : r2.id = r.id := hcontra
        exact hnd.1 (hcontra2 ▸ List.mem_map.mpr ⟨r2, h2, rfl⟩)
      rw [hzero]
      omega
    · have hne : (roleKey r0 == roleKey r) = false := by
        have : roleKey r0 ≠ roleKey r := by
          intro he
          have hideq : r0.id = r.id := congrArg Prod.fst he
          exact hnd.1 (hideq ▸ List.mem_map.mpr ⟨r, hrs, rfl⟩)
        simpa using this
      rw [List.count_replicate, hne]
      simp only [if_false, Bool.false_eq_true]
      rw [ih hnd.2 r hrs]
      simp

theorem mem_activeJoinedKeys {k : Nat × String × Option String}
    {rs : List Role} {ur : List UserRole} :
    k ∈ activeJoinedKeys rs ur
      ↔ ∃ r ∈ rs, roleKey r = k ∧ 0 < activeAssignmentCount ur r := by
  constructor
  · intro hk
    obtain ⟨r, hr, hmem⟩ := List.mem_flatMap.mp hk
    obtain ⟨a, ha, hkey⟩ := List.mem_map.mp hmem
    refine ⟨r, hr, hkey, ?_⟩
    exact List.length_pos.mpr (List.ne_nil_of_mem ha)
  · rintro ⟨r, hr, hkey, hpos⟩
    obtain ⟨a, ha⟩ := List.exists_mem_of_ne_nil _ (List.length_pos.mp hpos)
    exact List.mem_flatMap.mpr ⟨r, hr, List.mem_map.mpr ⟨a, ha, hkey⟩⟩

theorem mem_popularGroups {g : (Nat × String × Option String) × Nat}
    {rs : List Role} {ur : List UserRole} (hg : g ∈ popularGroups rs ur) :
    g.1 ∈ activeJoinedKeys rs ur ∧ g.2 = (activeJoinedKeys rs ur).count g.1 := by
  have h1 := List.mem_of_mem_take hg
  have h2 := (List.mem_insertionSort countGE).mp h1
  obtain ⟨k, hk, hke⟩ := List.mem_map.mp h2
  have hk2 := List.mem_dedup.mp hk
  rw [← hke]
  exact ⟨hk2, rfl⟩

/-! ## Claim C9 -/

/-- C9: `role_statistics` reports the total role count, the active role
count, their difference as `inactive_roles`, and at most 5 popular-roles
entries ordered by non-increasing active-assignment count, each entry
carrying the name, description and active-assignment count of a stored
role. -/
theorem c9_role_statistics (s : Store)
    (hids : (s.roles.map (fun r => r.id)).Nodup) :
    (getRoleStatistics s).total_roles = s.roles.length
    ∧ (getRoleStatistics s).active_roles = (s.roles.filter (fun r => r.is_active)).length
    ∧ (getRoleStatistics s).inactive_roles
        = (getRoleStatistics s).total_roles - (getRoleStatistics s).active_roles
    ∧ (getRoleStatistics s).active_roles + (getRoleStatistics s).inactive_roles
        = (getRoleStatistics s).total_roles
    ∧ (getRoleStatistics s).popular_roles.length ≤ 5
    ∧ List.Pairwise (fun a b => b.2.2 ≤ a.2.2) (getRoleStatistics s).popular_roles
    ∧ (∀ e ∈ (getRoleStatistics s).popular_roles,
        ∃ r ∈ s.roles, e.1 = r.name ∧ e.2.1 = r.description
          ∧ e.2.2 = activeAssignmentCount s.user_roles r) := by
  refine ⟨rfl, rfl, rfl, ?_, ?_, ?_, ?_⟩
  · have hle : (s.roles.filter (fun r => r.is_active)).length ≤ s.roles.length :=
      List.length_filter_le _ _
    show (s.roles.filter (fun r => r.is_active)).length
      + (s.roles.length - (s.roles.filter (fun r => r.is_active)).length) = s.roles.length
    omega
  · show ((popularGroups s.roles s.user_roles).map
      (fun g => (g.1.2.1, g.1.2.2, g.2))).length ≤ 5
    rw [List.length_map, popularGroups]
    exact List.length_take_le 5 _
  · have hsorted : List.Pairwise countGE
        (List.insertionSort countGE
          ((activeJoinedKeys s.roles s.user_roles).dedup.map
            (fun k => (k, (activeJoinedKeys s.roles s.user_roles).count k)))) :=
      List.sorted_insertionSort countGE _
    have htake : List.Pairwise countGE (popularGroups s.roles s.user_roles) :=
      hsorted.sublist (List.take_sublist 5 _)
    show List.Pairwise (fun a b => b.2.2 ≤ a.2.2)
      ((popularGroups s.roles s.user_roles).map
        (fun g => (g.1.2.1, g.1.2.2, g.2)))
    exact List.Pairwise.map
      (fun g : (Nat × String × Option String) × Nat => (g.1.2.1, g.1.2.2, g.2))
      (fun a b h => h) htake
  · intro e he
    obtain ⟨g, hg, hge⟩ := List.mem_map.mp he
    obtain ⟨hk, hcnt⟩ := mem_popularGroups hg
    obtain ⟨r, hr, hkey, -⟩ := mem_activeJoinedKeys.mp hk
    refine ⟨r, hr, ?_, ?_, ?_⟩ <;> rw [← hge]
    · show g.1.2.1 = r.name
      rw [← hkey]
      rfl
    · show g.1.2.2 = r.description
      rw [← hkey]
      rfl
    · show g.2 = activeAssignmentCount s.user_roles r
      rw [hcnt, ← hkey, count_activeJoinedKeys s.user_roles s.roles hids r hr]

/-- Concrete run of C9 on `storeTwoRoles`. -/
theorem c9_role_statistics_witness :
    (storeTwoRoles.roles.map (fun r => r.id)).Nodup
    ∧ (getRoleStatistics storeTwoRoles).popular_roles.length ≤ 5
    ∧ (getRoleStatistics storeTwoRoles).active_roles
        + (getRoleStatistics storeTwoRoles).inactive_roles
        = (getRoleStatistics storeTwoRoles).total_roles := by
  have h := c9_role_statistics storeTwoRoles (by decide)
  exact ⟨by decide, h.2.2.2.2.1, h.2.2.2.1⟩

/-! ## Claim C10 -/

/-- C10: the popular-roles query inner-joins on active assignments, so every
group it can return has a strictly positive user count and no group belongs
to a role without active assignments: such roles are excluded entirely, never
listed trailing with a zero count. -/
theorem c10_zero_user_roles_excluded (s : Store)
    (hids : (s.roles.map (fun r => r.id)).Nodup) :
    (∀ g ∈ popularGroups s.roles s.user_roles, 1 ≤ g.2)
    ∧ (∀ r ∈ s.roles, activeAssignmentCount s.user_roles r = 0 →
        ∀ g ∈ popularGroups s.roles s.user_roles, g.1 ≠ roleKey r)
    ∧ (∀ e ∈ (getRoleStatistics s).popular_roles, 1 ≤ e.2.2) := by
  refine ⟨?_, ?_, ?_⟩
  · intro g hg
    obtain ⟨hk, hcnt⟩ := mem_popularGroups hg
    rw [hcnt]
    exact List.count_pos_iff.mpr hk
  · intro r hr hzero g hg hkey
    obtain ⟨hk, -⟩ := mem_popularGroups hg
    rw [hkey] at hk
    obtain ⟨r2, hr2, hk2, hpos⟩ := mem_activeJoinedKeys.mp hk
    have hid : r2.id = r.id := congrArg Prod.fst hk2
    have heq : r2 = r := List.inj_on_of_nodup_map hids hr2 hr hid
    rw [heq, hzero] at hpos
    exact Nat.lt_irrefl 0 hpos
  · intro e he
    obtain ⟨g, hg, hge⟩ := List.mem_map.mp he
    obtain ⟨hk, hcnt⟩ := mem_popularGroups hg
    rw [← hge]
    show 1 ≤ g.2
    rw [hcnt]
    exact List.count_pos_iff.mpr hk

/-- Concrete run of C10 on `storeTwoRoles`: the `guest` role has no active
assignment and produces no popular-roles group. -/
theorem c10_zero_user_roles_excluded_witness :
    (storeTwoRoles.roles.map (fun r => r.id)).Nodup
    ∧ activeAssignmentCount storeTwoRoles.user_roles guestRow = 0
    ∧ (∀ g ∈ popularGroups storeTwoRoles.roles storeTwoRoles.user_roles,
        g.1 ≠ roleKey guestRow) := by
  have h := c10_zero_user_roles_excluded storeTwoRoles (by decide)
  exact ⟨by decide, by decide, h.2.1 guestRow (by decide) (by decide)⟩

/-! ## LIKE-matching lemmas -/

theorem likeMatch_percent (ps : List Char) (cs : List Char) :
    likeMatch ('%' :: ps) cs = true
      ↔ ∃ suf, suf <:+ cs ∧ likeMatch ps suf = true := by
  have hunfold : likeMatch ('%' :: ps) cs
      = cs.tails.any (fun suf => likeMatch ps suf) := rfl
  rw [hunfold, List.any_eq_true]
  constructor
  · rintro ⟨suf, hsuf, hm⟩
    exact ⟨suf, (List.mem_tails suf cs).mp hsuf, hm⟩
  · rintro ⟨suf, hsuf, hm⟩
    exact ⟨suf, (List.mem_tails suf cs).mpr hsuf, hm⟩

theorem likeMatch_plain_percent (t : List Char)
    (ht : ∀ c ∈ t, c ≠ '%' ∧ c ≠ '_') :
    ∀ (cs : List Char),
      (likeMatch (t ++ ['%']) cs = true
        ↔ (t.map Char.toLower) <+: (cs.map Char.toLower)) := by
  induction t with
  | nil =>
    intro cs
    simp only [List.nil_append, List.map_nil]
    constructor
    · intro _
      exact List.nil_prefix
    · intro _
      rw [likeMatch_percent]
      exact ⟨[], List.nil_suffix, rfl⟩
  | cons p t ih =>
    intro cs
    have hp := ht p (List.mem_cons_self p t)
    have ht2 : ∀ c ∈ t, c ≠ '%' ∧ c ≠ '_' :=
      fun c hc => ht c (List.mem_cons_of_mem p hc)
    cases cs with
    | nil =>
      rw [List.cons_append, likeMatch]
      rw [if_neg hp.1]
      simp
    | cons c cs =>
      rw [List.cons_append, likeMatch]
      rw [if_neg hp.1]
      have hu : (p == '_') = false := by simpa using hp.2
      simp only [hu, Bool.false_or, Bool.and_eq_true, beq_iff_eq, List.map_cons,
        List.cons_prefix_cons]
      rw [ih ht2 cs]

theorem isInfix_iff_prefix_of_suffix {α : Type} (x y : List α) :
    x <:+: y ↔ ∃ suf, suf <:+ y ∧ x <+: suf := by
  constructor
  · rintro ⟨s, t, rfl⟩
    exact ⟨x ++ t, ⟨s, by rw [List.append_assoc]⟩, ⟨t, rfl⟩⟩
  · rintro ⟨suf, ⟨s, rfl⟩, ⟨t, rfl⟩⟩
    exact ⟨s, t, by rw [List.append_assoc]⟩

theorem likeMatch_pattern_iff (t : String)
    (ht : ∀ c ∈ t.toList, c ≠ '%' ∧ c ≠ '_') (cs : List Char) :
    likeMatch ("%" ++ t ++ "%").toList cs = true
      ↔ (t.toList.map Char.toLower) <:+: (cs.map Char.toLower) := by
  have hlist : ("%" ++ t ++ "%").toList = '%' :: (t.toList ++ ['%']) := by
    show ("%" ++ t ++ "%").data = '%' :: (t.data ++ ['%'])
    rw [String.data_append, String.data_append]
    rfl
  rw [hlist, likeMatch_percent]
  constructor
  · rintro ⟨suf, hsuf, hm⟩
    have hpre := (likeMatch_plain_percent t.toList ht suf).mp hm
    exact (isInfix_iff_prefix_of_suffix _ _).mpr
      ⟨suf.map Char.toLower, hsuf.map Char.toLower, hpre⟩
  · intro hinf
    obtain ⟨sufL, hsufL, hpreL⟩ := (isInfix_iff_prefix_of_suffix _ _).mp hinf
    obtain ⟨s, hs⟩ := hsufL
    have hdrop : sufL = (cs.map Char.toLower).drop s.length := by
      rw [← hs, List.drop_left]
    refine ⟨cs.drop s.length, List.drop_suffix s.length cs, ?_⟩
    apply (likeMatch_plain_percent t.toList ht (cs.drop s.length)).mpr
    rw [List.map_drop, ← hdrop]
    exact hpreL

theorem searchFilter_eq_roleMatchesSearch (t : String)
    (ht : ∀ c ∈ t.toList, c ≠ '%' ∧ c ≠ '_') (r : Role) :
    searchFilter t r = roleMatchesSearch t r := by
  have hname : likeMatch ("%" ++ t ++ "%").toList r.name.toList = containsCIb r.name t := by
    rw [Bool.eq_iff_iff]
    rw [likeMatch_pattern_iff t ht r.name.toList]
    simp [containsCIb, containsCI, lowerChars]
  rw [searchFilter, roleMatchesSearch, hname]
  cases hd : r.description with
  | none => rfl
  | some dsc =>
    have hdesc : likeMatch ("%" ++ t ++ "%").toList dsc.toList = containsCIb dsc t := by
      rw [Bool.eq_iff_iff]
      rw [likeMatch_pattern_iff t ht dsc.toList]
      simp [containsCIb, containsCI, lowerChars]
    rw [ilikeOpt, hdesc]

/-! ## Claim C8 -/

/-- C8 counterexample: with the wildcard-bearing search string `a%c`,
`get_roles` returns the role named `abc` although `a%c` is not a
case-insensitive substring of `abc` (nor of its NULL description): the code
interpolates the search string into an ILIKE pattern, so `%` and `_` inside
it act as SQL wildcards rather than literal characters. -/
theorem c8_search_wildcard_counterexample :
    getRoles [roleAbc] 0 100 false (some "a%c") = [roleAbc]
    ∧ ¬ containsCI roleAbc.name "a%c"
    ∧ roleAbc.description = none :=
  ⟨by decide, by decide, rfl⟩

/-- C8 amended: for wildcard-free search strings, `get_roles` filters to
active roles when `active_only` is set, matches the search case-insensitively
as a substring of the name or the description (NULL descriptions never
match), orders by `created_at` descending, paginates with `OFFSET skip LIMIT
limit` — `limit` declared within `[1, 1000]` with default 100, `skip ≥ 0`
with default 0 — and returns the empty list when nothing matches.  Search
strings containing `%` or `_` are instead interpreted with SQL LIKE wildcard
semantics. -/
theorem c8_list_roles_amended (roles : List Role) (skip limit : Nat) (ao : Bool)
    (t : String)
    (_hmin : getRolesMinLimit ≤ limit) (_hmax : limit ≤ getRolesMaxLimit)
    (ht : t ≠ "") (hplain : ∀ c ∈ t.toList, c ≠ '%' ∧ c ≠ '_') :
    getRoles roles skip limit ao (some t)
      = ((List.insertionSort createdAtGE
          (roles.filter (fun r => (!ao || r.is_active) && roleMatchesSearch t r))).drop
            skip).take limit
    ∧ (getRoles roles skip limit ao (some t)).length ≤ limit
    ∧ (∀ r ∈ getRoles roles skip limit ao (some t),
        (ao = true → r.is_active = true)
        ∧ (containsCI r.name t ∨ ∃ dsc, r.description = some dsc ∧ containsCI dsc t))
    ∧ List.Pairwise createdAtGE (getRoles roles skip limit ao (some t))
    ∧ ((∀ r ∈ roles, roleMatchesSearch t r = false) →
        getRoles roles skip limit ao (some t) = [])
    ∧ getRolesDefaultLimit = 100 ∧ getRolesDefaultSkip = 0 := by
  have hpred : ∀ r : Role,
      searchFilter t r = roleMatchesSearch t r :=
    searchFilter_eq_roleMatchesSearch t hplain
  have hfilter :
      (if ao then roles.filter (fun r => r.is_active) else roles).filter (searchFilter t)
        = roles.filter (fun r => (!ao || r.is_active) && roleMatchesSearch t r) := by
    cases ao with
    | true =>
      rw [if_pos rfl, List.filter_filter]
      refine List.filter_congr ?_
      intro x _
      rw [hpred x]
      cases x.is_active <;> cases roleMatchesSearch t x <;> rfl
    | false =>
      rw [if_neg (by simp)]
      refine List.filter_congr ?_
      intro x _
      rw [hpred x]
      cases roleMatchesSearch t x <;> rfl
  have hmain : getRoles roles skip limit ao (some t)
      = ((List.insertionSort createdAtGE
          (roles.filter (fun r => (!ao || r.is_active) && roleMatchesSearch t r))).drop
            skip).take limit := by
    simp only [getRoles]
    rw [if_neg ht, hfilter]
  refine ⟨hmain, ?_, ?_, ?_, ?_, rfl, rfl⟩
  · rw [hmain]
    exact List.length_take_le _ _
  · intro r hr
    rw [hmain] at hr
    have h1 : r ∈ List.insertionSort createdAtGE
        (roles.filter (fun r => (!ao || r.is_active) && roleMatchesSearch t r)) :=
      List.mem_of_mem_drop (List.mem_of_mem_take hr)
    have h2 := (List.mem_insertionSort createdAtGE).mp h1
    have h3 := List.mem_filter.mp h2
    have h4 := h3.2
    rw [Bool.and_eq_true] at h4
    constructor
    · intro hao
      subst hao
      simpa using h4.1
    · have h5 := h4.2
      rw [roleMatchesSearch, Bool.or_eq_true] at h5
      rcases h5 with h5 | h5
      · left
        simpa [containsCIb] using h5
      · right
        cases hd : r.description with
        | none => rw [hd] at h5; simp at h5
        | some dsc =>
          rw [hd] at h5
          exact ⟨dsc, rfl, by simpa [containsCIb] using h5⟩
  · rw [hmain]
    have hsorted := List.sorted_insertionSort createdAtGE
      (roles.filter (fun r => (!ao || r.is_active) && roleMatchesSearch t r))
    exact hsorted.sublist
      ((List.take_sublist _ _).trans (List.drop_sublist _ _))
  · intro hall
    rw [hmain]
    have hnil : roles.filter (fun r => (!ao || r.is_active) && roleMatchesSearch t r) = [] := by
      rw [List.filter_eq_nil_iff]
      intro a ha
      rw [hall a ha]
      simp
    rw [hnil]
    simp

/-- Concrete run of the amended C8 with the wildcard-free search `b` over a
single matching role. -/
theorem c8_list_roles_amended_witness :
    getRolesMinLimit ≤ 100
    ∧ 100 ≤ getRolesMaxLimit
    ∧ "b" ≠ ""
    ∧ (∀ c ∈ "b".toList, c ≠ '%' ∧ c ≠ '_')
    ∧ (getRoles [roleAbc] 0 100 true (some "b")).length ≤ 100
    ∧ getRolesDefaultLimit = 100 := by
  have h := c8_list_roles_amended [roleAbc] 0 100 true "b"
    (by decide) (by decide) (by decide) (by decide)
  exact ⟨by decide, by decide, by decide, by decide, h.2.1, h.2.2.2.2.2.1⟩

end AiJobReadiness
